import Mathlib

/-!
Verification of the timer_app time-tracking core.

Shallow embedding conventions:
* Timestamps are integer seconds since the Unix epoch (`ℤ`); Django's
  timezone-aware datetimes in a fixed timezone reduce to this for all the
  arithmetic the accounting core performs.
* Money is `ℚ`; Python's `round(x, 2)` (round-half-to-even) is embedded as
  `round2` over exact rationals.
* The relational store is a record of lists (`DB`); Django querysets become
  list filters, foreign-key attribute access becomes `find?` lookups.
* Fallible view endpoints become `Except`-valued functions.
-/

/-- `timer_app.models.Timer`: a priced task template (only the fields the
accounting core reads). -/
structure Timer where
  id : ℕ
  user_id : ℕ
  price_per_hour : ℚ
deriving Repr, DecidableEq

/-- `customers.models.Customer` (fields the core reads). -/
structure Customer where
  id : ℕ
  user_id : ℕ
deriving Repr, DecidableEq

/-- `projects.models.Project` (fields the core reads); `status` is the string
field with values `"active"` / `"completed"`. -/
structure Project where
  id : ℕ
  customer_id : ℕ
  status : String
deriving Repr, DecidableEq

/-- `timer.models.ProjectTimer`: the junction row binding a Timer to a
Project. -/
structure ProjectTimer where
  id : ℕ
  project_id : ℕ
  timer_id : ℕ
deriving Repr, DecidableEq

/-- `deliverables.models.Deliverable` (fields the core reads). -/
structure Deliverable where
  id : ℕ
  project_id : ℕ
  name : String
deriving Repr, DecidableEq

/-- `timer.models.TimerSession`: one timed interval. `end_time = none` means
the session is open (running or paused); `pause_start_time ≠ none` together
with `end_time = none` means currently paused. `price_per_hour` is the
snapshot copied from the Timer at start. -/
structure TimerSession where
  id : ℕ
  project_timer_id : ℕ
  start_time : ℤ
  end_time : Option ℤ
  price_per_hour : ℚ
  note : String
  deliverable_id : Option ℕ
  created_by : Option ℕ
  pause_start_time : Option ℤ
deriving Repr, DecidableEq

/-- `timer.models.TimerPause`: a completed (already-resumed) pause interval of
a session. -/
structure TimerPause where
  session_id : ℕ
  pause_start_time : ℤ
  pause_end_time : ℤ
deriving Repr, DecidableEq

/-- The relational store visible to the accounting core. -/
structure DB where
  customers : List Customer
  projects : List Project
  timers : List Timer
  project_timers : List ProjectTimer
  deliverables : List Deliverable
  sessions : List TimerSession
  pauses : List TimerPause
deriving Repr, DecidableEq

/-- The floor of a rational, written on its numerator and denominator so the
kernel can evaluate it. -/
def qfloor (x : ℚ) : ℤ := x.num / (x.den : ℤ)

/-- Python's `round(x, 2)` on the exact value: round half to even at the
second decimal place. -/
def round2 (x : ℚ) : ℚ :=
  let y : ℚ := x * 100
  let f : ℤ := qfloor y
  let r : ℚ := y - f
  let n : ℤ :=
    if r < 1/2 then f
    else if 1/2 < r then f + 1
    else if f % 2 = 0 then f else f + 1
  (n : ℚ) / 100

namespace TimerPause

/-- `TimerPause.duration_seconds`. -/
def duration_seconds (p : TimerPause) : ℤ :=
  p.pause_end_time - p.pause_start_time

end TimerPause

namespace TimerSession

/-- `TimerSession.is_paused`: `pause_start_time is not None and end_time is
None`. -/
def is_paused (s : TimerSession) : Bool :=
  s.pause_start_time.isSome && s.end_time.isNone

/-- `TimerSession.paused_duration_seconds`: sum of the durations of the
session's completed pauses (`self.pauses.all()` becomes a filter on the pause
table by session id). -/
def paused_duration_seconds (pauses : List TimerPause) (s : TimerSession) : ℤ :=
  ((pauses.filter (fun p => p.session_id == s.id)).map TimerPause.duration_seconds).sum

/-- The `effective_end` computed inside `TimerSession.duration_seconds`:
`end_time` if set, else `pause_start_time` when `is_paused()`, else now. -/
def effective_end (now : ℤ) (s : TimerSession) : ℤ :=
  match s.end_time with
  | some e => e
  | none =>
    match s.pause_start_time with
    | some p => p
    | none => now

/-- `TimerSession.duration_seconds`: wall-clock span up to `effective_end`,
minus completed pauses, clamped at 0. -/
def duration_seconds (now : ℤ) (pauses : List TimerPause) (s : TimerSession) : ℤ :=
  max 0 (effective_end now s - s.start_time - paused_duration_seconds pauses s)

/-- `TimerSession.cost`: 0 while open; once closed,
`round(float(price_per_hour) * duration_seconds/3600, 2)` using the session's
own snapshot price. -/
def cost (now : ℤ) (pauses : List TimerPause) (s : TimerSession) : ℚ :=
  match s.end_time with
  | some _ => round2 (s.price_per_hour * ((duration_seconds now pauses s : ℚ) / 3600))
  | none => 0

end TimerSession

namespace ProjectTimer

/-- The open sessions of an assignment:
`self.sessions.filter(end_time__isnull=True)`. -/
def open_sessions (db : DB) (pt_id : ℕ) : List TimerSession :=
  db.sessions.filter (fun s => s.project_timer_id == pt_id && s.end_time.isNone)

/-- `ProjectTimer.is_running`: an open session exists for this assignment. -/
def is_running (db : DB) (pt_id : ℕ) : Bool :=
  !(open_sessions db pt_id).isEmpty

/-- The head a stable sort by descending `start_time` would put first: the
earliest-listed session of maximal `start_time`. -/
def first_by_latest_start : List TimerSession → Option TimerSession
  | [] => none
  | s :: rest =>
    match first_by_latest_start rest with
    | none => some s
    | some t => if t.start_time ≤ s.start_time then some s else some t

/-- `ProjectTimer.active_session`: first open session under the model's
`-start_time` ordering (latest start first). -/
def active_session (db : DB) (pt_id : ℕ) : Option TimerSession :=
  first_by_latest_start (open_sessions db pt_id)

/-- The closed sessions of an assignment:
`self.sessions.filter(end_time__isnull=False)`. -/
def closed_sessions (db : DB) (pt_id : ℕ) : List TimerSession :=
  db.sessions.filter (fun s => s.project_timer_id == pt_id && s.end_time.isSome)

/-- `ProjectTimer.total_duration_seconds`: sums the raw wall-clock span
`(session.end_time - session.start_time)` of each closed session (the code
does not call `session.duration_seconds()` here, so completed pauses are not
subtracted). -/
def total_duration_seconds (db : DB) (pt_id : ℕ) : ℤ :=
  ((closed_sessions db pt_id).map (fun s => s.end_time.getD s.start_time - s.start_time)).sum

/-- `ProjectTimer.total_cost`: sums the (already rounded) `session.cost()`
values of closed sessions, then rounds the sum to 2 decimal places. -/
def total_cost (now : ℤ) (db : DB) (pt_id : ℕ) : ℚ :=
  round2 (((closed_sessions db pt_id).map (TimerSession.cost now db.pauses)).sum)

end ProjectTimer

namespace Project

/-- `self.project_timers.all()`. -/
def project_timers (db : DB) (p_id : ℕ) : List ProjectTimer :=
  db.project_timers.filter (fun pt => pt.project_id == p_id)

/-- `Project.total_duration_seconds`: sum over the project's assignments. -/
def total_duration_seconds (db : DB) (p_id : ℕ) : ℤ :=
  ((project_timers db p_id).map (fun pt => ProjectTimer.total_duration_seconds db pt.id)).sum

/-- `Project.total_cost`: sum over the project's assignments, rounded. -/
def total_cost (now : ℤ) (db : DB) (p_id : ℕ) : ℚ :=
  round2 (((project_timers db p_id).map (fun pt => ProjectTimer.total_cost now db pt.id)).sum)

end Project

namespace Customer

/-- `self.projects.all()`. -/
def projects (db : DB) (c_id : ℕ) : List Project :=
  db.projects.filter (fun p => p.customer_id == c_id)

/-- `Customer.total_duration_seconds`: sum over the customer's projects. -/
def total_duration_seconds (db : DB) (c_id : ℕ) : ℤ :=
  ((projects db c_id).map (fun p => Project.total_duration_seconds db p.id)).sum

/-- `Customer.total_cost`: sum over the customer's projects, rounded. -/
def total_cost (now : ℤ) (db : DB) (c_id : ℕ) : ℚ :=
  round2 (((projects db c_id).map (fun p => Project.total_cost now db p.id)).sum)

end Customer

namespace Deliverable

/-- `TimerSession.objects.filter(deliverable=self, end_time__isnull=False)`. -/
def closed_sessions (db : DB) (d_id : ℕ) : List TimerSession :=
  db.sessions.filter (fun s => s.deliverable_id == some d_id && s.end_time.isSome)

/-- `Deliverable.total_duration_seconds`: sums `session.duration_seconds()`
(pause-adjusted) over the deliverable's closed sessions. -/
def total_duration_seconds (now : ℤ) (db : DB) (d_id : ℕ) : ℤ :=
  ((closed_sessions db d_id).map (TimerSession.duration_seconds now db.pauses)).sum

/-- `Deliverable.total_cost`: sums `session.cost()` over the deliverable's
closed sessions, then rounds. -/
def total_cost (now : ℤ) (db : DB) (d_id : ℕ) : ℚ :=
  round2 (((closed_sessions db d_id).map (TimerSession.cost now db.pauses)).sum)

end Deliverable

/-- `project_timer.project.status == 'completed'` via the FK lookup. -/
def projectIsCompleted (db : DB) (p_id : ℕ) : Bool :=
  match db.projects.find? (fun p => p.id == p_id) with
  | some p => p.status == "completed"
  | none => false

/-- `project_timer.timer.price_per_hour` via the FK lookup (the FK always
resolves in the relational store; 0 is a formal default). -/
def timerPrice (db : DB) (t_id : ℕ) : ℚ :=
  match db.timers.find? (fun t => t.id == t_id) with
  | some t => t.price_per_hour
  | none => 0

/-- The rejected-operation outcomes of `timer_start` (the view's 400
responses; the spec calls both `ConflictError`). -/
inductive ConflictError where
  | projectCompleted
  | alreadyRunning
deriving Repr, DecidableEq

/-- The rejected-operation outcome of `timer_stop`. -/
inductive StopError where
  | notRunning
deriving Repr, DecidableEq

/-- `timer.views.timer_start`: reject when the parent project is completed,
then when an open session already exists; otherwise create a session with
`start_time = now`, the timer's current price as snapshot, and the acting
user as `created_by`. `new_id` stands for the fresh primary key. -/
def timer_start (now : ℤ) (db : DB) (pt : ProjectTimer) (actor : ℕ) (new_id : ℕ) :
    Except ConflictError DB :=
  if projectIsCompleted db pt.project_id then
    .error .projectCompleted
  else if ProjectTimer.is_running db pt.id then
    .error .alreadyRunning
  else
    .ok { db with
      sessions := db.sessions ++ [{
        id := new_id
        project_timer_id := pt.id
        start_time := now
        end_time := none
        price_per_hour := timerPrice db pt.timer_id
        note := ""
        deliverable_id := none
        created_by := some actor
        pause_start_time := none }] }

/-- `timer.views.timer_stop`: reject when no session is running; otherwise
set `end_time = now` on the active session and save it. Nothing else about
the session is touched: in particular `pause_start_time` is not cleared and
no `TimerPause` row is created for an in-progress pause. -/
def timer_stop (now : ℤ) (db : DB) (pt_id : ℕ) : Except StopError DB :=
  if !ProjectTimer.is_running db pt_id then
    .error .notRunning
  else
    match ProjectTimer.active_session db pt_id with
    | none => .error .notRunning
    | some s =>
      .ok { db with
        sessions := db.sessions.map (fun t =>
          if t.id == s.id then { t with end_time := some now } else t) }

/-- Calendar date of a timestamp as days since the epoch
(`datetime.date()` under the embedding). -/
def tsDays (t : ℤ) : ℤ := t / 86400

/-- `datetime.hour` of a timestamp: hour-of-day 0..23. -/
def tsHour (t : ℤ) : ℤ := t % 86400 / 3600

/-- Python `datetime.weekday()`: Monday = 0 .. Sunday = 6
(1970-01-01 was a Thursday, weekday 3). -/
def tsWeekday (t : ℤ) : ℤ := (tsDays t + 3) % 7

/-- Civil (year, month) of a day count since the epoch — the `'%Y-%m'`
bucket key. Standard days-to-civil conversion on the proleptic Gregorian
calendar. -/
def civilYearMonth (days : ℤ) : ℤ × ℤ :=
  let z := days + 719468
  let era := z / 146097
  let doe := z - era * 146097
  let yoe := (doe - doe / 1460 + doe / 36524 - doe / 146096) / 365
  let y := yoe + era * 400
  let doy := doe - (365 * yoe + yoe / 4 - yoe / 100)
  let mp := (5 * doy + 2) / 153
  let m := mp + (if mp < 10 then 3 else -9)
  (if m ≤ 2 then y + 1 else y, m)

/-- The `end_time` of a closed session (only ever evaluated by the analytics
code on sessions with `end_time` set; the default is a formal placeholder). -/
def endOf (s : TimerSession) : ℤ := s.end_time.getD s.start_time

/-- The workspace owner chain of a session:
`session.project_timer.project.customer.user`. -/
def sessionUser (db : DB) (s : TimerSession) : Option ℕ :=
  (db.project_timers.find? (fun pt => pt.id == s.project_timer_id)).bind (fun pt =>
    (db.projects.find? (fun p => p.id == pt.project_id)).bind (fun p =>
      (db.customers.find? (fun c => c.id == p.customer_id)).map (fun c => c.user_id)))

namespace Analytics

/-- `analytics.views.statistics`: the base queryset of completed sessions,
`TimerSession.objects.filter(project_timer__project__customer__user__in=
workspace_users, end_time__isnull=False)`. -/
def completed_sessions (users : List ℕ) (db : DB) : List TimerSession :=
  db.sessions.filter (fun s =>
    s.end_time.isSome && (sessionUser db s).any (fun u => users.contains u))

/-- Overall `total_cost = sum(session.cost() for session in
completed_sessions)` — no rounding applied to the sum. -/
def total_cost (now : ℤ) (users : List ℕ) (db : DB) : ℚ :=
  ((completed_sessions users db).map (TimerSession.cost now db.pauses)).sum

/-- `week_start = now - timedelta(days=now.weekday())`: subtracts whole days,
keeping the time-of-day of `now`. -/
def week_start (now : ℤ) : ℤ := now - 86400 * tsWeekday now

/-- `this_week_sessions = completed_sessions.filter(end_time__gte=week_start)`. -/
def this_week_sessions (now : ℤ) (users : List ℕ) (db : DB) : List TimerSession :=
  (completed_sessions users db).filter (fun s => decide (week_start now ≤ endOf s))

/-- Daily bucket (last 30 days): sessions with `end_time` in the window are
keyed by `session.end_time.date()`; value is summed `duration_seconds()`. -/
def daily_stat (now : ℤ) (users : List ℕ) (db : DB) (d : ℤ) : ℤ :=
  (((completed_sessions users db).filter (fun s =>
      decide (now - 30 * 86400 ≤ endOf s) && tsDays (endOf s) == d)).map
    (TimerSession.duration_seconds now db.pauses)).sum

/-- Weekly bucket (last 84 days): keyed by
`session.end_time.date() - timedelta(days=session.end_time.weekday())`. -/
def weekly_stat (now : ℤ) (users : List ℕ) (db : DB) (w : ℤ) : ℤ :=
  (((completed_sessions users db).filter (fun s =>
      decide (now - 84 * 86400 ≤ endOf s) &&
      tsDays (endOf s) - tsWeekday (endOf s) == w)).map
    (TimerSession.duration_seconds now db.pauses)).sum

/-- Day-of-week bucket: keyed by `session.end_time.weekday()` over all
completed sessions. -/
def day_of_week_stat (now : ℤ) (users : List ℕ) (db : DB) (w : ℤ) : ℤ :=
  (((completed_sessions users db).filter (fun s => tsWeekday (endOf s) == w)).map
    (TimerSession.duration_seconds now db.pauses)).sum

/-- Hourly bucket: keyed by `session.start_time.hour` over all completed
sessions. -/
def hourly_stat (now : ℤ) (users : List ℕ) (db : DB) (h : ℤ) : ℤ :=
  (((completed_sessions users db).filter (fun s => tsHour s.start_time == h)).map
    (TimerSession.duration_seconds now db.pauses)).sum

/-- Monthly bucket (last 180 days): keyed by
`session.end_time.strftime('%Y-%m')`. -/
def monthly_stat (now : ℤ) (users : List ℕ) (db : DB) (ym : ℤ × ℤ) : ℤ :=
  (((completed_sessions users db).filter (fun s =>
      decide (now - 180 * 86400 ≤ endOf s) &&
      civilYearMonth (tsDays (endOf s)) == ym)).map
    (TimerSession.duration_seconds now db.pauses)).sum

/-- `hourly_hours = [hourly_stats[h] / 3600 for h in range(24)]`: a dense
24-element series. -/
def hourly_series (now : ℤ) (users : List ℕ) (db : DB) : List ℚ :=
  (List.range 24).map (fun h => ((hourly_stat now users db h : ℚ) / 3600))

/-- `day_of_week_hours = [day_of_week_stats[day] / 3600 for day in
day_names]`: a dense 7-element series, Monday first. -/
def day_of_week_series (now : ℤ) (users : List ℕ) (db : DB) : List ℚ :=
  (List.range 7).map (fun w => ((day_of_week_stat now users db w : ℚ) / 3600))

end Analytics

/-- `deliverables.views` deletion of a Deliverable under the declared
`on_delete=models.SET_NULL` on `TimerSession.deliverable`
(timer/models.py:134): the deliverable row goes away and every session that
referenced it keeps all its fields but gets `deliverable = NULL`. -/
def delete_deliverable (db : DB) (d_id : ℕ) : DB :=
  { db with
    deliverables := db.deliverables.filter (fun d => d.id != d_id)
    sessions := db.sessions.map (fun s =>
      if s.deliverable_id == some d_id then { s with deliverable_id := none } else s) }

/-- `timer.views.timer_edit_global` saving a new price on a Timer template:
updates only the Timer row. -/
def timer_edit_price (db : DB) (t_id : ℕ) (newPrice : ℚ) : DB :=
  { db with timers := db.timers.map (fun t =>
      if t.id == t_id then { t with price_per_hour := newPrice } else t) }

theorem qfloor_eq (x : ℚ) : qfloor x = ⌊x⌋ := Rat.floor_def.symm

theorem round2_fix (n : ℤ) : round2 ((n : ℚ) / 100) = (n : ℚ) / 100 := by
  have h : ((n : ℚ) / 100) * 100 = (n : ℚ) := by field_simp
  simp only [round2, qfloor_eq, h, Int.floor_intCast]
  norm_num

theorem round2_shape (x : ℚ) : ∃ n : ℤ, round2 x = (n : ℚ) / 100 := by
  refine ⟨_, rfl⟩

theorem cost_shape (now : ℤ) (pauses : List TimerPause) (s : TimerSession) :
    ∃ n : ℤ, TimerSession.cost now pauses s = (n : ℚ) / 100 := by
  unfold TimerSession.cost
  cases s.end_time with
  | none => exact ⟨0, by norm_num⟩
  | some e => exact round2_shape _

theorem sum_shape (l : List ℚ) (h : ∀ x ∈ l, ∃ n : ℤ, x = (n : ℚ) / 100) :
    ∃ m : ℤ, l.sum = (m : ℚ) / 100 := by
  induction l with
  | nil => exact ⟨0, by norm_num⟩
  | cons a t ih =>
    obtain ⟨n, hn⟩ := h a (List.mem_cons_self a t)
    obtain ⟨m, hm⟩ := ih (fun x hx => h x (List.mem_cons_of_mem a hx))
    refine ⟨n + m, ?_⟩
    rw [List.sum_cons, hn, hm]
    push_cast
    ring

theorem round2_sum_of_shapes (l : List ℚ) (h : ∀ x ∈ l, ∃ n : ℤ, x = (n : ℚ) / 100) :
    round2 l.sum = l.sum := by
  obtain ⟨m, hm⟩ := sum_shape l h
  rw [hm, round2_fix]

theorem first_by_latest_start_mem (l : List TimerSession) (s : TimerSession)
    (h : ProjectTimer.first_by_latest_start l = some s) : s ∈ l := by
  induction l with
  | nil => simp [ProjectTimer.first_by_latest_start] at h
  | cons a rest ih =>
    simp only [ProjectTimer.first_by_latest_start] at h
    cases hr : ProjectTimer.first_by_latest_start rest with
    | none => rw [hr] at h; simp only [Option.some.injEq] at h; simp [h]
    | some t =>
      rw [hr] at h
      by_cases hc : t.start_time ≤ a.start_time
      · simp only [hc, if_pos] at h
        simp only [Option.some.injEq] at h
        simp [h]
      · simp only [hc, if_neg, not_false_iff] at h
        simp only [Option.some.injEq] at h
        exact List.mem_cons_of_mem a (ih (h ▸ hr))

theorem first_by_latest_start_ne_nil (l : List TimerSession) (h : l ≠ []) :
    ∃ s, ProjectTimer.first_by_latest_start l = some s := by
  cases l with
  | nil => exact absurd rfl h
  | cons a rest =>
    simp only [ProjectTimer.first_by_latest_start]
    cases ProjectTimer.first_by_latest_start rest with
    | none => exact ⟨a, rfl⟩
    | some t =>
      by_cases hc : t.start_time ≤ a.start_time
      · exact ⟨a, by simp [hc]⟩
      · exact ⟨t, by simp [hc]⟩

/-- Example workspace rows used for concrete evaluations. -/
def exCustomer : Customer := ⟨1, 10⟩

def exProject : Project := ⟨1, 1, "active"⟩

def exTimer : Timer := ⟨1, 10, 100⟩

def exProjectTimer : ProjectTimer := ⟨1, 1, 1⟩

def exDeliverable : Deliverable := ⟨1, 1, "video"⟩

/-- A completed 600 s pause of session 1. -/
def exPause1 : TimerPause := ⟨1, 600, 1200⟩

/-- A completed 900 s pause of session 1. -/
def exPause2 : TimerPause := ⟨1, 3000, 3900⟩

/-- A closed session spanning 7200 s wall-clock at snapshot price 100. -/
def exClosedSession : TimerSession :=
  ⟨1, 1, 0, some 7200, 100, "", some 1, some 10, none⟩

/-- A running (open, not paused) session. -/
def exOpenSession : TimerSession :=
  ⟨2, 1, 0, none, 100, "", none, some 10, none⟩

/-- A database with one closed two-pause session. -/
def exDB : DB :=
  ⟨[exCustomer], [exProject], [exTimer], [exProjectTimer], [exDeliverable],
   [exClosedSession], [exPause1, exPause2]⟩

/-- C10: `duration_seconds()` is clamped below by the `max(0, ...)` in the
source, so it is nonnegative for every session state, every pause table and
every current time — including end before start or oversubtracting pauses. -/
theorem duration_seconds_nonneg (now : ℤ) (pauses : List TimerPause) (s : TimerSession) :
    0 ≤ TimerSession.duration_seconds now pauses s :=
  le_max_left 0 _

/-- The claim's effective-end clause, written from the spec's words:
end_time if set, else pause_start_time if set, else the current time. -/
def effectiveEndSpec (now : ℤ) (s : TimerSession) : ℤ :=
  match s.end_time with
  | some e => e
  | none => s.pause_start_time.getD now

/-- C2: `duration_seconds()` is `max(0, effective_end - start_time - sum of
completed pause lengths)` with effective_end as the claim orders the cases,
and the concrete two-pause example (7200 s wall-clock, pauses of 600 s and
900 s) yields 5700. -/
theorem duration_seconds_spec (now : ℤ) (pauses : List TimerPause) (s : TimerSession) :
    TimerSession.duration_seconds now pauses s =
      max 0 (effectiveEndSpec now s - s.start_time -
        TimerSession.paused_duration_seconds pauses s) ∧
    TimerSession.duration_seconds 0 [exPause1, exPause2] exClosedSession = 5700 := by
  constructor
  · have h : TimerSession.effective_end now s = effectiveEndSpec now s := by
      unfold TimerSession.effective_end effectiveEndSpec
      cases s.end_time with
      | some e => rfl
      | none => cases s.pause_start_time <;> rfl
    rw [TimerSession.duration_seconds, h]
  · decide

/-- C1: a closed session's cost() is `round(price_per_hour *
duration_seconds/3600, 2)` from the session's own snapshot price; editing the
parent Timer's price afterwards rewrites only the timer table — sessions and
pauses are untouched, so every session's cost() is literally unchanged; an
open (running or paused) session's cost() is 0. -/
theorem cost_spec (now : ℤ) (db : DB) (s : TimerSession) (t_id : ℕ) (newPrice : ℚ) :
    (∀ e : ℤ, s.end_time = some e →
      TimerSession.cost now db.pauses s =
        round2 (s.price_per_hour *
          (TimerSession.duration_seconds now db.pauses s : ℚ) / 3600)) ∧
    (s.end_time = none → TimerSession.cost now db.pauses s = 0) ∧
    (timer_edit_price db t_id newPrice).sessions = db.sessions ∧
    (timer_edit_price db t_id newPrice).pauses = db.pauses ∧
    TimerSession.cost now (timer_edit_price db t_id newPrice).pauses s =
      TimerSession.cost now db.pauses s := by
  refine ⟨?_, ?_, rfl, rfl, rfl⟩
  · intro e he
    unfold TimerSession.cost
    rw [he, mul_div_assoc]
  · intro he
    unfold TimerSession.cost
    rw [he]

/-- Witness for C1 at the concrete two-pause session: pause-adjusted duration
5700 s at snapshot price 100 gives cost 158.33. -/
theorem cost_spec_witness :
    TimerSession.cost 0 exDB.pauses exClosedSession =
      round2 (exClosedSession.price_per_hour *
        (TimerSession.duration_seconds 0 exDB.pauses exClosedSession : ℚ) / 3600) ∧
    TimerSession.cost 0 exDB.pauses exOpenSession = 0 ∧
    TimerSession.cost 0 exDB.pauses exClosedSession = 15833 / 100 := by
  have h1 := (cost_spec 0 exDB exClosedSession 1 150).1 7200 rfl
  have h2 := (cost_spec 0 exDB exOpenSession 1 150).2.1 rfl
  refine ⟨h1, h2, ?_⟩
  rw [h1]
  have hd : TimerSession.duration_seconds 0 exDB.pauses exClosedSession = 5700 := by
    decide
  rw [hd]
  norm_num [round2, qfloor_eq, exClosedSession]

/-- An open session paused at t=3600 (active pause, not resumed). -/
def exPausedSession : TimerSession :=
  ⟨3, 1, 0, none, 100, "", none, some 10, some 3600⟩

/-- A database whose only session is open and paused. -/
def exDB3 : DB :=
  ⟨[exCustomer], [exProject], [exTimer], [exProjectTimer], [],
   [exPausedSession], []⟩

theorem is_running_of_active (db : DB) (pt_id : ℕ) (s : TimerSession)
    (h : ProjectTimer.active_session db pt_id = some s) :
    ProjectTimer.is_running db pt_id = true := by
  unfold ProjectTimer.is_running
  unfold ProjectTimer.active_session at h
  cases hl : ProjectTimer.open_sessions db pt_id with
  | nil => rw [hl] at h; simp [ProjectTimer.first_by_latest_start] at h
  | cons a t => simp [hl]

/-- C3 amended: stopping a paused session sets `end_time = now` and leaves
`pause_start_time` and the pause table untouched; because `duration_seconds`
checks `end_time` before `pause_start_time`, the closed session's duration is
`max(0, stop_time - start_time - completed pauses)` — the interval from
`pause_start_time` to the stop time IS included in the billed duration. -/
theorem stop_while_paused_spec (now now2 : ℤ) (db : DB) (pt_id : ℕ)
    (s : TimerSession) (p : ℤ)
    (hactive : ProjectTimer.active_session db pt_id = some s)
    (hpaused : s.pause_start_time = some p) :
    timer_stop now db pt_id =
      Except.ok { db with sessions := db.sessions.map (fun t =>
        if t.id == s.id then { t with end_time := some now } else t) } ∧
    TimerSession.duration_seconds now2 db.pauses { s with end_time := some now } =
      max 0 (now - s.start_time - TimerSession.paused_duration_seconds db.pauses s) := by
  constructor
  · have hrun := is_running_of_active db pt_id s hactive
    simp [timer_stop, hrun, hactive]
  · rfl

/-- Witness for C3 at a session paused at 3600 and stopped at 7200: the
stopped session bills 7200 s. -/
theorem stop_while_paused_spec_witness :
    timer_stop 7200 exDB3 1 =
      Except.ok { exDB3 with sessions := exDB3.sessions.map (fun t =>
        if t.id == exPausedSession.id then { t with end_time := some 7200 } else t) } ∧
    TimerSession.duration_seconds 9000 exDB3.pauses
        { exPausedSession with end_time := some 7200 } =
      max 0 (7200 - exPausedSession.start_time -
        TimerSession.paused_duration_seconds exDB3.pauses exPausedSession) :=
  stop_while_paused_spec 7200 9000 exDB3 1 exPausedSession 3600 rfl rfl

/-- C3 counterexample: the paused-then-stopped session's duration is 7200 s
(stop − start), not 3600 s (pause − start) as the claim states. -/
theorem stop_while_paused_counterexample :
    ((timer_stop 7200 exDB3 1).toOption.map (fun d =>
      d.sessions.map (fun t => TimerSession.duration_seconds 9000 d.pauses t))) =
      some [7200] ∧
    exPausedSession.pause_start_time.getD 0 - exPausedSession.start_time = 3600 ∧
    (7200 : ℤ) ≠ 3600 := by
  decide

theorem map_cost_shapes (now : ℤ) (pauses : List TimerPause) (l : List TimerSession) :
    ∀ x ∈ l.map (TimerSession.cost now pauses), ∃ n : ℤ, x = (n : ℚ) / 100 := by
  intro x hx
  obtain ⟨s, _, rfl⟩ := List.mem_map.mp hx
  exact cost_shape now pauses s

/-- C4 amended: each aggregation level sums exactly its direct children —
Customer over Projects, Project over assignments — and every total_cost
equation of the claim holds (the re-rounding at each level is the identity on
sums of already-2-dp values). For durations, Deliverable sums pause-adjusted
`duration_seconds()`, but ProjectTimer sums the raw wall-clock span
`end_time - start_time` of its closed sessions, NOT `duration_seconds()`. -/
theorem aggregation_hierarchy (now : ℤ) (db : DB) (c_id p_id pt_id d_id : ℕ) :
    Customer.total_duration_seconds db c_id =
      ((Customer.projects db c_id).map
        (fun p => Project.total_duration_seconds db p.id)).sum ∧
    Project.total_duration_seconds db p_id =
      ((Project.project_timers db p_id).map
        (fun pt => ProjectTimer.total_duration_seconds db pt.id)).sum ∧
    ProjectTimer.total_duration_seconds db pt_id =
      ((ProjectTimer.closed_sessions db pt_id).map
        (fun s => s.end_time.getD s.start_time - s.start_time)).sum ∧
    Deliverable.total_duration_seconds now db d_id =
      ((Deliverable.closed_sessions db d_id).map
        (TimerSession.duration_seconds now db.pauses)).sum ∧
    Customer.total_cost now db c_id =
      ((Customer.projects db c_id).map (fun p => Project.total_cost now db p.id)).sum ∧
    Project.total_cost now db p_id =
      ((Project.project_timers db p_id).map
        (fun pt => ProjectTimer.total_cost now db pt.id)).sum ∧
    ProjectTimer.total_cost now db pt_id =
      ((ProjectTimer.closed_sessions db pt_id).map
        (TimerSession.cost now db.pauses)).sum ∧
    Deliverable.total_cost now db d_id =
      ((Deliverable.closed_sessions db d_id).map
        (TimerSession.cost now db.pauses)).sum := by
  refine ⟨rfl, rfl, rfl, rfl, ?_, ?_, ?_, ?_⟩
  · unfold Customer.total_cost
    refine round2_sum_of_shapes _ ?_
    intro x hx
    obtain ⟨p, _, rfl⟩ := List.mem_map.mp hx
    exact round2_shape _
  · unfold Project.total_cost
    refine round2_sum_of_shapes _ ?_
    intro x hx
    obtain ⟨pt, _, rfl⟩ := List.mem_map.mp hx
    exact round2_shape _
  · exact round2_sum_of_shapes _ (map_cost_shapes now db.pauses _)
  · exact round2_sum_of_shapes _ (map_cost_shapes now db.pauses _)

/-- C4 counterexample: a closed session spanning 7200 s with 1500 s of
completed pauses — the assignment-level total reports 7200, while the sum of
`duration_seconds()` over the same closed sessions is 5700. -/
theorem aggregation_hierarchy_counterexample :
    ProjectTimer.total_duration_seconds exDB 1 = 7200 ∧
    ((ProjectTimer.closed_sessions exDB 1).map
      (TimerSession.duration_seconds 0 exDB.pauses)).sum = 5700 ∧
    (7200 : ℤ) ≠ 5700 := by
  decide

/-- C5: `timer_start` is rejected whenever the parent project is completed or
an open session already exists for the assignment (and the store is returned
unchanged only through the error, so no session row is created); on success
the store gains exactly one session — start_time = now, the timer's current
price as snapshot, the actor as created_by — and that new session is the
assignment's only open session afterward. -/
theorem timer_start_spec (now : ℤ) (db : DB) (pt : ProjectTimer) (actor new_id : ℕ) :
    (ProjectTimer.is_running db pt.id = true ∨
        projectIsCompleted db pt.project_id = true →
      ∃ e, timer_start now db pt actor new_id = Except.error e) ∧
    (∀ db2, timer_start now db pt actor new_id = Except.ok db2 →
      db2.sessions = db.sessions ++
        [⟨new_id, pt.id, now, none, timerPrice db pt.timer_id, "", none,
          some actor, none⟩] ∧
      ProjectTimer.open_sessions db2 pt.id =
        [⟨new_id, pt.id, now, none, timerPrice db pt.timer_id, "", none,
          some actor, none⟩]) := by
  constructor
  · intro h
    unfold timer_start
    by_cases hc : projectIsCompleted db pt.project_id = true
    · rw [if_pos hc]
      exact ⟨_, rfl⟩
    · have hr : ProjectTimer.is_running db pt.id = true := h.resolve_right hc
      rw [if_neg hc, if_pos hr]
      exact ⟨_, rfl⟩
  · intro db2 hok
    unfold timer_start at hok
    by_cases hc : projectIsCompleted db pt.project_id = true
    · rw [if_pos hc] at hok
      exact absurd hok (by simp)
    · rw [if_neg hc] at hok
      by_cases hr : ProjectTimer.is_running db pt.id = true
      · rw [if_pos hr] at hok
        exact absurd hok (by simp)
      · rw [if_neg hr] at hok
        injection hok with h
        subst h
        have hopen : ProjectTimer.open_sessions db pt.id = [] := by
          simp only [ProjectTimer.is_running, Bool.not_eq_true, Bool.not_eq_false] at hr
          simpa using hr
        refine ⟨rfl, ?_⟩
        simp only [ProjectTimer.open_sessions] at hopen ⊢
        simp [List.filter_append, hopen]

/-- The session `timer_start 100 exDB exProjectTimer 10 99` creates. -/
def exNewSession : TimerSession :=
  ⟨99, 1, 100, none, timerPrice exDB 1, "", none, some 10, none⟩

/-- Witness for C5: starting on an assignment with an open session is
rejected; starting on an idle assignment leaves exactly the new session
open. -/
theorem timer_start_spec_witness :
    (∃ e, timer_start 100 exDB3 exProjectTimer 10 99 = Except.error e) ∧
    ProjectTimer.open_sessions
      { exDB with sessions := exDB.sessions ++ [exNewSession] } 1 = [exNewSession] := by
  constructor
  · exact (timer_start_spec 100 exDB3 exProjectTimer 10 99).1 (Or.inl (by decide))
  · exact ((timer_start_spec 100 exDB exProjectTimer 10 99).2 _ rfl).2

theorem tsHour_mem (t : ℤ) : ∃ m : ℕ, m < 24 ∧ tsHour t = (m : ℤ) := by
  have h : 0 ≤ tsHour t ∧ tsHour t < 24 := by
    unfold tsHour
    omega
  exact ⟨(tsHour t).toNat, by omega, by omega⟩

theorem tsWeekday_mem (t : ℤ) : ∃ m : ℕ, m < 7 ∧ tsWeekday t = (m : ℤ) := by
  have h : 0 ≤ tsWeekday t ∧ tsWeekday t < 7 := by
    unfold tsWeekday tsDays
    omega
  exact ⟨(tsWeekday t).toNat, by omega, by omega⟩

theorem bucket_partition (n : ℕ) (key : TimerSession → ℤ) (f : TimerSession → ℤ)
    (l : List TimerSession) (hk : ∀ s ∈ l, ∃ m : ℕ, m < n ∧ key s = (m : ℤ)) :
    (∑ k ∈ Finset.range n, ((l.filter (fun s => key s == (k : ℤ))).map f).sum)
      = (l.map f).sum := by
  induction l with
  | nil => simp
  | cons a rest ih =>
    obtain ⟨m, hm, hkey⟩ := hk a (List.mem_cons_self a rest)
    have hrest : ∀ s ∈ rest, ∃ m2 : ℕ, m2 < n ∧ key s = (m2 : ℤ) :=
      fun s hs => hk s (List.mem_cons_of_mem a hs)
    have hsplit : ∀ k : ℕ,
        (((a :: rest).filter (fun s => key s == (k : ℤ))).map f).sum
          = (if key a == (k : ℤ) then f a else 0) +
            ((rest.filter (fun s => key s == (k : ℤ))).map f).sum := by
      intro k
      by_cases hak : key a == (k : ℤ)
      · simp [List.filter_cons, hak]
      · simp [List.filter_cons, hak]
    simp only [hsplit]
    rw [Finset.sum_add_distrib, ih hrest, List.map_cons, List.sum_cons]
    congr 1
    rw [Finset.sum_eq_single m]
    · simp [hkey]
    · intro b hb hbm
      have : ¬ (key a == (b : ℤ)) = true := by
        rw [hkey, beq_iff_eq]
        exact_mod_cast fun hc => hbm (by exact_mod_cast hc.symm)
      simp [this]
    · intro hmem
      exact absurd (Finset.mem_range.mpr hm) hmem

/-- A closed session starting at hour 10 and ending at hour 12 of day 0. -/
def exSession6 : TimerSession :=
  ⟨1, 1, 36000, some 43200, 100, "", none, some 10, none⟩

/-- A database around `exSession6` whose workspace chain resolves to user
10. -/
def exDB6 : DB :=
  ⟨[exCustomer], [exProject], [exTimer], [exProjectTimer], [], [exSession6], []⟩

/-- C6 amended: the daily, weekly, monthly and day-of-week series key a
closed session by its end_time (the key is a function of end_time alone and
is untouched by any start_time value), while the hour-of-day series keys by
start_time.hour; the hour-of-day and day-of-week series are dense — 24 and 7
entries, every completed session falls in exactly one bucket, and buckets no
session maps to report zero. -/
theorem analytics_bucketing (now : ℤ) (users : List ℕ) (db : DB)
    (s : TimerSession) (e t h w : ℤ) (he : s.end_time = some e) :
    endOf { s with start_time := t } = e ∧
    endOf s = e ∧
    ({ s with start_time := t } : TimerSession).start_time = t ∧
    (Analytics.hourly_series now users db).length = 24 ∧
    (Analytics.day_of_week_series now users db).length = 7 ∧
    (∑ k ∈ Finset.range 24, Analytics.hourly_stat now users db (k : ℤ)) =
      ((Analytics.completed_sessions users db).map
        (TimerSession.duration_seconds now db.pauses)).sum ∧
    (∑ k ∈ Finset.range 7, Analytics.day_of_week_stat now users db (k : ℤ)) =
      ((Analytics.completed_sessions users db).map
        (TimerSession.duration_seconds now db.pauses)).sum ∧
    ((∀ s2 ∈ Analytics.completed_sessions users db, tsHour s2.start_time ≠ h) →
      Analytics.hourly_stat now users db h = 0) ∧
    ((∀ s2 ∈ Analytics.completed_sessions users db, tsWeekday (endOf s2) ≠ w) →
      Analytics.day_of_week_stat now users db w = 0) := by
  refine ⟨by simp [endOf, he], by simp [endOf, he], rfl, ?_, ?_, ?_, ?_, ?_, ?_⟩
  · rfl
  · rfl
  · exact bucket_partition 24 (fun s2 => tsHour s2.start_time)
      (TimerSession.duration_seconds now db.pauses) _
      (fun s2 _ => tsHour_mem s2.start_time)
  · exact bucket_partition 7 (fun s2 => tsWeekday (endOf s2))
      (TimerSession.duration_seconds now db.pauses) _
      (fun s2 _ => tsWeekday_mem (endOf s2))
  · intro hall
    unfold Analytics.hourly_stat
    have : (Analytics.completed_sessions users db).filter
        (fun s2 => tsHour s2.start_time == h) = [] := by
      rw [List.filter_eq_nil_iff]
      intro s2 hs2
      simpa using hall s2 hs2
    rw [this]
    rfl
  · intro hall
    unfold Analytics.day_of_week_stat
    have : (Analytics.completed_sessions users db).filter
        (fun s2 => tsWeekday (endOf s2) == w) = [] := by
      rw [List.filter_eq_nil_iff]
      intro s2 hs2
      simpa using hall s2 hs2
    rw [this]
    rfl

/-- Witness for C6: the concrete one-session workspace — edits to
start_time leave end-keys alone, and the dense hourly partition carries the
full 7200 s. -/
theorem analytics_bucketing_witness :
    endOf { exSession6 with start_time := 0 } = 43200 ∧
    (∑ k ∈ Finset.range 24, Analytics.hourly_stat 0 [10] exDB6 (k : ℤ)) =
      ((Analytics.completed_sessions [10] exDB6).map
        (TimerSession.duration_seconds 0 exDB6.pauses)).sum := by
  have h := analytics_bucketing 0 [10] exDB6 exSession6 43200 0 3 4 rfl
  exact ⟨h.1, h.2.2.2.2.2.1⟩

/-- C6 counterexample: `exSession6` ends at hour 12 but is counted in hour
bucket 10 — its start hour — and bucket 12 stays empty; the hour-of-day
series does not key by end_time. -/
theorem analytics_bucketing_counterexample :
    tsHour (endOf exSession6) = 12 ∧
    Analytics.hourly_stat 0 [10] exDB6 12 = 0 ∧
    Analytics.hourly_stat 0 [10] exDB6 10 = 7200 := by
  decide

/-- The claim's reference point, modelled from the spec's words: the most
recent Monday at 00:00 relative to `now`. -/
def mondayMidnight (now : ℤ) : ℤ := 86400 * (tsDays now - tsWeekday now)

/-- A session closed on Monday 08:00 (1970-01-05). -/
def exSession7 : TimerSession :=
  ⟨1, 1, 370800, some 374400, 100, "", none, some 10, none⟩

/-- A database around `exSession7`. -/
def exDB7 : DB :=
  ⟨[exCustomer], [exProject], [exTimer], [exProjectTimer], [], [exSession7], []⟩

/-- C7 amended: the "this week" cutoff is `now - weekday(now) days` — the
most recent Monday at the SAME time-of-day as the query, i.e. Monday 00:00
plus the query's time-of-day — and the series keeps exactly the completed
sessions whose end_time is on or after that cutoff; sessions that ended
earlier on the current Monday than the query's time-of-day are excluded. -/
theorem this_week_spec (now : ℤ) (users : List ℕ) (db : DB) (s : TimerSession) :
    Analytics.week_start now = mondayMidnight now + (now - 86400 * tsDays now) ∧
    (s ∈ Analytics.this_week_sessions now users db ↔
      s ∈ Analytics.completed_sessions users db ∧
        Analytics.week_start now ≤ endOf s) := by
  constructor
  · unfold Analytics.week_start mondayMidnight
    ring
  · unfold Analytics.this_week_sessions
    rw [List.mem_filter]
    simp

/-- C7 counterexample: query time Monday 09:00; `exSession7` ended Monday
08:00 — on/after the Monday-00:00 cutoff the claim names — yet "this week"
comes back empty, because the code's cutoff is Monday 09:00. -/
theorem this_week_counterexample :
    tsWeekday 378000 = 0 ∧
    mondayMidnight 378000 ≤ endOf exSession7 ∧
    exSession7 ∈ Analytics.completed_sessions [10] exDB7 ∧
    Analytics.this_week_sessions 378000 [10] exDB7 = [] := by
  decide

/-- Modelled from the spec's rounding-policy sentence: the exact, unrounded
cost of a session, `price_per_hour * duration_seconds/3600`. -/
def specExactCost (now : ℤ) (pauses : List TimerPause) (s : TimerSession) : ℚ :=
  s.price_per_hour * ((TimerSession.duration_seconds now pauses s : ℚ) / 3600)

/-- Modelled from the spec's rounding-policy sentence: an assignment total
that keeps full precision in the intermediate sum and rounds once, at the
reporting boundary. -/
def specOnceRoundedTotalCost (now : ℤ) (db : DB) (pt_id : ℕ) : ℚ :=
  round2 (((ProjectTimer.closed_sessions db pt_id).map (specExactCost now db.pauses)).sum)

/-- A 1-second closed session at 10 per hour (exact cost 1/360 ≈ 0.0028). -/
def exSession8a : TimerSession :=
  ⟨1, 1, 0, some 1, 10, "", none, some 10, none⟩

/-- A second 1-second closed session at 10 per hour. -/
def exSession8b : TimerSession :=
  ⟨2, 1, 100, some 101, 10, "", none, some 10, none⟩

/-- A database whose assignment 1 has the two 1-second sessions. -/
def exDB8 : DB :=
  ⟨[exCustomer], [exProject], [exTimer], [exProjectTimer], [],
   [exSession8a, exSession8b], []⟩

/-- C8 amended: rounding to 2 dp happens per session first — `cost()` is the
rounded exact cost — and every aggregate sums these already-rounded values;
the assignment-level re-rounding is the identity on such sums, and the
analytics overall total applies no outer rounding at all. Totals therefore
equal sums of per-session rounded costs, not `round(exact sum, 2)`. -/
theorem rounding_policy (now : ℤ) (db : DB) (pt_id : ℕ) (users : List ℕ)
    (s : TimerSession) (e : ℤ) (he : s.end_time = some e) :
    TimerSession.cost now db.pauses s = round2 (specExactCost now db.pauses s) ∧
    ProjectTimer.total_cost now db pt_id =
      ((ProjectTimer.closed_sessions db pt_id).map
        (TimerSession.cost now db.pauses)).sum ∧
    Analytics.total_cost now users db =
      ((Analytics.completed_sessions users db).map
        (TimerSession.cost now db.pauses)).sum := by
  refine ⟨?_, ?_, rfl⟩
  · unfold TimerSession.cost specExactCost
    rw [he]
  · exact round2_sum_of_shapes _ (map_cost_shapes now db.pauses _)

/-- Witness for C8 on the two-session store: the assignment's reported total
is the sum of the two rounded per-session costs. -/
theorem rounding_policy_witness :
    TimerSession.cost 0 exDB8.pauses exSession8a =
      round2 (specExactCost 0 exDB8.pauses exSession8a) ∧
    ProjectTimer.total_cost 0 exDB8 1 =
      ((ProjectTimer.closed_sessions exDB8 1).map
        (TimerSession.cost 0 exDB8.pauses)).sum :=
  ⟨(rounding_policy 0 exDB8 1 [10] exSession8a 1 rfl).1,
   (rounding_policy 0 exDB8 1 [10] exSession8a 1 rfl).2.1⟩

/-- C8 counterexample: two 1-second sessions at 10/hour. Each rounds to 0.00,
so the reported assignment total is 0.00; rounding once at the boundary would
give round(2/360, 2) = 0.01. Intermediate precision is NOT retained. -/
theorem rounding_counterexample :
    ProjectTimer.total_cost 0 exDB8 1 = 0 ∧
    specOnceRoundedTotalCost 0 exDB8 1 = 1 / 100 ∧
    (0 : ℚ) ≠ 1 / 100 := by
  have hd1 : TimerSession.duration_seconds 0 exDB8.pauses exSession8a = 1 := by decide
  have hd2 : TimerSession.duration_seconds 0 exDB8.pauses exSession8b = 1 := by decide
  have hca : TimerSession.cost 0 exDB8.pauses exSession8a = 0 := by
    have h0 : TimerSession.cost 0 exDB8.pauses exSession8a =
        round2 (exSession8a.price_per_hour *
          ((TimerSession.duration_seconds 0 exDB8.pauses exSession8a : ℚ) / 3600)) := rfl
    rw [h0, hd1]
    norm_num [exSession8a, round2, qfloor_eq]
  have hcb : TimerSession.cost 0 exDB8.pauses exSession8b = 0 := by
    have h0 : TimerSession.cost 0 exDB8.pauses exSession8b =
        round2 (exSession8b.price_per_hour *
          ((TimerSession.duration_seconds 0 exDB8.pauses exSession8b : ℚ) / 3600)) := rfl
    rw [h0, hd2]
    norm_num [exSession8b, round2, qfloor_eq]
  have hea : specExactCost 0 exDB8.pauses exSession8a = 1 / 360 := by
    unfold specExactCost
    rw [hd1]
    norm_num [exSession8a]
  have heb : specExactCost 0 exDB8.pauses exSession8b = 1 / 360 := by
    unfold specExactCost
    rw [hd2]
    norm_num [exSession8b]
  refine ⟨?_, ?_, by norm_num⟩
  · have h0 : ProjectTimer.total_cost 0 exDB8 1 =
        round2 (TimerSession.cost 0 exDB8.pauses exSession8a +
          (TimerSession.cost 0 exDB8.pauses exSession8b + 0)) := rfl
    rw [h0, hca, hcb]
    norm_num [round2, qfloor_eq]
  · have h0 : specOnceRoundedTotalCost 0 exDB8 1 =
        round2 (specExactCost 0 exDB8.pauses exSession8a +
          (specExactCost 0 exDB8.pauses exSession8b + 0)) := rfl
    rw [h0, hea, heb]
    norm_num [round2, qfloor_eq]

/-- C9: deleting a deliverable never deletes a session: the session list
keeps its length and order, the pause table is untouched, and each row keeps
every field — id, assignment, times, snapshot price, note, creator, pause
state — except that a deliverable reference pointing at the deleted row
becomes null (and any other reference is left as it was). -/
theorem delete_deliverable_spec (db : DB) (d_id : ℕ) (s : TimerSession) :
    (delete_deliverable db d_id).sessions =
      db.sessions.map (fun t =>
        if t.deliverable_id == some d_id then
          { t with deliverable_id := none } else t) ∧
    (delete_deliverable db d_id).sessions.length = db.sessions.length ∧
    (delete_deliverable db d_id).pauses = db.pauses ∧
    ((if s.deliverable_id == some d_id then
        { s with deliverable_id := none } else s).id = s.id ∧
      (if s.deliverable_id == some d_id then
        { s with deliverable_id := none } else s).project_timer_id =
        s.project_timer_id ∧
      (if s.deliverable_id == some d_id then
        { s with deliverable_id := none } else s).start_time = s.start_time ∧
      (if s.deliverable_id == some d_id then
        { s with deliverable_id := none } else s).end_time = s.end_time ∧
      (if s.deliverable_id == some d_id then
        { s with deliverable_id := none } else s).price_per_hour =
        s.price_per_hour ∧
      (if s.deliverable_id == some d_id then
        { s with deliverable_id := none } else s).note = s.note ∧
      (if s.deliverable_id == some d_id then
        { s with deliverable_id := none } else s).created_by = s.created_by ∧
      (if s.deliverable_id == some d_id then
        { s with deliverable_id := none } else s).pause_start_time =
        s.pause_start_time) ∧
    (if s.deliverable_id == some d_id then
        { s with deliverable_id := none } else s).deliverable_id =
      (if s.deliverable_id == some d_id then none else s.deliverable_id) := by
  refine ⟨rfl, by simp [delete_deliverable], rfl, ?_, ?_⟩
  · by_cases hc : s.deliverable_id == some d_id <;> simp [hc]
  · by_cases hc : s.deliverable_id == some d_id <;> simp [hc]
